import Mathlib

/-!
Verification development for the pyright-action helpers module
(src/helpers.ts). The TypeScript source is shallowly embedded in Lean:
each definition below mirrors the corresponding function of the source.
JavaScript string primitives (trim, toUpperCase, split, numeric parsing)
are modelled structurally over lists of characters, restricted to the
ASCII behaviour the option values exercise, so that every definition is
executable by the kernel.
-/

deriving instance DecidableEq for Except

/-! ## JavaScript string primitives -/

/-- JavaScript String.prototype.trim, over ASCII whitespace. -/
def jsTrim (s : String) : String :=
  (((s.toList.dropWhile Char.isWhitespace).reverse.dropWhile Char.isWhitespace).reverse).asString

/-- JavaScript String.prototype.toUpperCase, over ASCII letters. -/
def jsToUpper (s : String) : String :=
  (s.toList.map Char.toUpper).asString

/-- Split a character list at every occurrence of a separator character. -/
def splitChar (sep : Char) : List Char → List (List Char)
  | [] => [[]]
  | c :: rest =>
    let r := splitChar sep rest
    if c = sep then [] :: r
    else
      match r with
      | [] => [[c]]
      | w :: ws => (c :: w) :: ws

/-- JavaScript String.prototype.split with a single-character separator:
`"".split(sep)` is `[""]`, and separators at the ends yield empty pieces. -/
def jsSplit (sep : Char) (s : String) : List String :=
  (splitChar sep s.toList).map List.asString

/-- Join strings with a separator (Array.prototype.join / intercalate). -/
def joinWith (sep : String) : List String → String
  | [] => ""
  | [x] => x
  | x :: xs => x ++ sep ++ joinWith sep xs

/-- Numeric value of a digit list, most significant digit first. -/
def digitsVal (cs : List Char) : Nat :=
  cs.foldl (fun n c => n * 10 + (c.toNat - 48)) 0

/-- Parse a nonempty all-digit string to a natural number. -/
def parseDigits (s : String) : Option Nat :=
  if s.toList.isEmpty then none
  else if s.toList.all Char.isDigit then some (digitsVal s.toList) else none

/-! ## Semantic versions (the npm semver package, strict mode)

`src/helpers.ts` relies on the npm semver SemVer class for parsing,
normalisation and comparison.  The model below mirrors the strict
(non-loose) parser and the compare/format methods. -/

/-- Prerelease identifier.  The npm SemVer constructor stores an
all-digit identifier below Number.MAX_SAFE_INTEGER as a number and any
other identifier as a string. -/
inductive PreId where
  | num : Nat → PreId
  | alpha : String → PreId
deriving DecidableEq

/-- Parsed semantic version.  Build metadata is validated by the parser
but not stored: SemVer.compare and SemVer.format both ignore it. -/
structure SemVer where
  major : Nat
  minor : Nat
  patch : Nat
  prerelease : List PreId
deriving DecidableEq

def maxSafeInteger : Nat := 9007199254740991

/-- Characters allowed in prerelease/build identifiers. -/
def isIdentCh (c : Char) : Bool :=
  c.isDigit || c.isAlpha || c == '-'

/-- An all-digit string of length at least two starting with zero. -/
def hasLeadingZero (s : String) : Bool :=
  match s.toList with
  | '0' :: _ :: _ => true
  | _ => false

/-- Strict main-version component: digits only, no leading zero, at
most Number.MAX_SAFE_INTEGER. -/
def parseMainNum (s : String) : Option Nat :=
  match parseDigits s with
  | none => none
  | some n =>
    if hasLeadingZero s then none
    else if n ≤ maxSafeInteger then some n else none

/-- Strict prerelease identifier: nonempty over [0-9A-Za-z-]; an
all-digit identifier may not have a leading zero, and becomes numeric
exactly when below Number.MAX_SAFE_INTEGER. -/
def parsePreId (s : String) : Option PreId :=
  if s.toList.isEmpty then none
  else if !(s.toList.all isIdentCh) then none
  else if s.toList.all Char.isDigit then
    if hasLeadingZero s then none
    else
      let n := digitsVal s.toList
      if n < maxSafeInteger then some (PreId.num n) else some (PreId.alpha s)
  else some (PreId.alpha s)

/-- Build-metadata identifier: nonempty over [0-9A-Za-z-]. -/
def validBuildId (s : String) : Bool :=
  !s.toList.isEmpty && s.toList.all isIdentCh

/-- Parse `X.Y.Z[-pre]` (build metadata already removed).  The first
hyphen separates the main version from the prerelease part; later
hyphens belong to prerelease identifiers. -/
def parseCoreAndPre (core : String) : Option SemVer :=
  match jsSplit '-' core with
  | [] => none
  | main :: rest =>
    match jsSplit '.' main with
    | [ma, mi, pa] => do
      let major ← parseMainNum ma
      let minor ← parseMainNum mi
      let patch ← parseMainNum pa
      if rest.isEmpty then
        pure { major, minor, patch, prerelease := [] }
      else
        let ids ← ((jsSplit '.' (joinWith "-" rest)).mapM parsePreId)
        pure { major, minor, patch, prerelease := ids }
    | _ => none

/-- Mirrors `new SemVer(version)` in strict mode: length limit of 256,
trim, one optional leading `v`, main version, optional prerelease,
optional (validated, then dropped) build metadata. -/
def parseSemVer (version : String) : Option SemVer :=
  if version.toList.length > 256 then none
  else
    let t := jsTrim version
    let t := match t.toList with
      | 'v' :: rest => rest.asString
      | _ => t
    match jsSplit '+' t with
    | [core] => parseCoreAndPre core
    | [core, build] =>
      if (jsSplit '.' build).all validBuildId then parseCoreAndPre core else none
    | _ => none

def PreId.render : PreId → String
  | .num n => toString n
  | .alpha s => s

/-- SemVer.format / SemVer.version: `major.minor.patch` plus a hyphen
and the dot-joined prerelease identifiers when present. -/
def SemVer.format (v : SemVer) : String :=
  let core := toString v.major ++ "." ++ toString v.minor ++ "." ++ toString v.patch
  if v.prerelease.isEmpty then core
  else core ++ "-" ++ joinWith "." (v.prerelease.map PreId.render)

/-- Three-way comparison of naturals as the -1/0/1 convention of npm
semver. -/
def cmpNat (a b : Nat) : Int :=
  if a < b then -1 else if b < a then 1 else 0

/-- npm semver compareIdentifiers: numbers before strings, numbers
numerically, strings by JavaScript string comparison. -/
def compareIdent : PreId → PreId → Int
  | .num a, .num b => cmpNat a b
  | .num _, .alpha _ => -1
  | .alpha _, .num _ => 1
  | .alpha a, .alpha b => if a = b then 0 else if a < b then -1 else 1

/-- Pairwise comparison of prerelease identifier lists; a list that
runs out first is smaller. -/
def comparePreIds : List PreId → List PreId → Int
  | [], [] => 0
  | [], _ :: _ => -1
  | _ :: _, [] => 1
  | a :: as, b :: bs => if a = b then comparePreIds as bs else compareIdent a b

/-- npm SemVer.comparePre: a version with a prerelease sorts before the
same version without one; otherwise identifiers are compared pairwise. -/
def comparePre (a b : List PreId) : Int :=
  if !a.isEmpty && b.isEmpty then -1
  else if a.isEmpty && !b.isEmpty then 1
  else if a.isEmpty && b.isEmpty then 0
  else comparePreIds a b

/-- npm SemVer.compareMain. -/
def compareMain (a b : SemVer) : Int :=
  let c := cmpNat a.major b.major
  if c ≠ 0 then c
  else
    let c := cmpNat a.minor b.minor
    if c ≠ 0 then c else cmpNat a.patch b.patch

/-- npm SemVer.compare: main version first, then prerelease precedence. -/
def semverCompare (a b : SemVer) : Int :=
  let c := compareMain a b
  if c ≠ 0 then c else comparePre a.prerelease b.prerelease

/-! ## Version resolution (getPyrightVersion, src/helpers.ts lines 260-279) -/

/-- Result of version resolution: either a version string obtained with
no network access, or a marker that the Pylance release manifest must
be fetched over the network for the given pylance version (the fetch
itself lives in `getPylancePyrightVersion`, an external collaborator of
the resolution logic modelled here). -/
inductive VersionResolution where
  | resolved : String → VersionResolution
  | pylanceLookup : String → VersionResolution
deriving DecidableEq

/-- Mirrors `getPyrightVersion`: an explicit `version` input is parsed
and normalised (`new SemVer(spec).format()`), with the constructor
throwing `Invalid Version` modelled as the error case; a
`pylance-version` input is validated and then sent to the network
lookup; with neither input the sentinel `"latest"` is returned. -/
def getPyrightVersion (versionSpec pylanceVersion : String) : Except String VersionResolution :=
  if versionSpec ≠ "" then
    match parseSemVer versionSpec with
    | some sv => .ok (.resolved sv.format)
    | none => .error ("Invalid Version: " ++ versionSpec)
  else if pylanceVersion ≠ "" then
    if pylanceVersion = "latest-release" ∨ pylanceVersion = "latest-prerelease" then
      .ok (.pylanceLookup pylanceVersion)
    else
      match parseSemVer pylanceVersion with
      | some _ => .ok (.pylanceLookup pylanceVersion)
      | none => .error ("Invalid Version: " ++ pylanceVersion)
  else .ok (.resolved "latest")

/-! ## Shell tokenization of extra-args

Modelled from the spec: `getArgs` tokenizes the `extra-args` input with
the `parse` function of the shell-quote package, whose source is not
part of this repository.  Per the spec, tokenization follows
shell-style word-splitting/quoting rules; a plain word yields a string
token, while shell operators and an unterminated quote yield
non-string results, which `getArgs` rejects. -/

inductive ShellTok where
  | str : String → ShellTok
  | op : String → ShellTok
  | unterminated : ShellTok
deriving DecidableEq

def ShellTok.isStr : ShellTok → Bool
  | .str _ => true
  | _ => false

/-- Shell metacharacters that form operator tokens. -/
def isShellOpCh (c : Char) : Bool :=
  c == '|' || c == '&' || c == ';' || c == '<' || c == '>' || c == '(' || c == ')'

/-- Tokenizer state: emitted tokens, the word being accumulated (none
between words), and the active quote character, if any. -/
structure ShellSt where
  toks : List ShellTok
  cur : Option String
  quo : Option Char

def shellFlush (st : ShellSt) : ShellSt :=
  match st.cur with
  | some w => { st with toks := st.toks ++ [ShellTok.str w], cur := none }
  | none => st

def shellStep (st : ShellSt) (c : Char) : ShellSt :=
  match st.quo with
  | some q =>
    if c = q then { st with quo := none }
    else { st with cur := some (st.cur.getD "" ++ c.toString) }
  | none =>
    if c.isWhitespace then shellFlush st
    else if isShellOpCh c then
      let st := shellFlush st
      { st with toks := st.toks ++ [ShellTok.op c.toString] }
    else if c = '"' ∨ c = '\'' then
      { st with quo := some c, cur := some (st.cur.getD "") }
    else { st with cur := some (st.cur.getD "" ++ c.toString) }

/-- Modelled from the spec: shell-quote `parse`.  A quote left open at
the end of the input produces the non-string `unterminated` token. -/
def shellParse (s : String) : List ShellTok :=
  let st := s.toList.foldl shellStep ⟨[], none, none⟩
  match st.quo with
  | some _ => st.toks ++ [ShellTok.unterminated]
  | none => (shellFlush st).toks

/-- The string payloads of the plain tokens, in order. -/
def strTokens (toks : List ShellTok) : List String :=
  toks.filterMap fun t =>
    match t with
    | .str s => some s
    | _ => none

/-- The loop body over shell tokens: a plain string token is appended,
any other token aborts with the malformed-extra-args error carrying
the raw input. -/
def extraFold (extraArgs : String) (acc : List String) :
    List ShellTok → Except String (List String)
  | [] => .ok acc
  | t :: rest =>
    match t with
    | ShellTok.str s => extraFold extraArgs (acc ++ [s]) rest
    | _ => .error ("malformed extra-args: " ++ extraArgs)

/-- Mirrors the extra-args handling of `getArgs` (src/helpers.ts lines
154-163): an empty input contributes nothing; otherwise the tokens of
the shell parse are folded, in order. -/
def parseExtraTokens (extraArgs : String) : Except String (List String) :=
  if extraArgs ≠ "" then extraFold extraArgs [] (shellParse extraArgs)
  else .ok []

/-! ## Configuration inputs

`core.getInput` returns the raw string value of an action input, the
empty string when the input is absent.  The builder consumes exactly
these inputs. -/

structure Inputs where
  workingDirectory : String
  createStub : String
  dependencies : String
  ignoreExternal : String
  level : String
  project : String
  pythonPlatform : String
  pythonPath : String
  pythonVersion : String
  skipUnannotated : String
  stats : String
  typeshedPath : String
  venvPath : String
  verbose : String
  verifyTypes : String
  warnings : String
  lib : String
  extraArgs : String
  annotate : String
  noComments : String
deriving DecidableEq

/-- Mirrors `getBooleanInput`: an empty (absent) input yields the
default, any other input is compared case-insensitively against the
literal TRUE. -/
def getBooleanInput (input : String) (defaultValue : Bool) : Bool :=
  if input = "" then defaultValue
  else jsToUpper input == "TRUE"

/-! ## Annotation set (src/helpers.ts lines 165-220) -/

def isAnnotateNone (name : String) : Bool :=
  name == "none" || jsToUpper name == "FALSE"

def isAnnotateAll (name : String) : Bool :=
  name == "all" || jsToUpper name == "TRUE"

/-- `core.getInput("annotate").trim() || "all"`. -/
def normalizeAnnotate (directive : String) : String :=
  let a := jsTrim directive
  if a = "" then "all" else a

/-- The sentinel rewriting of the trimmed directive. -/
def expandAnnotate (a : String) : String :=
  if isAnnotateNone a then ""
  else if isAnnotateAll a then "errors, warnings"
  else a

/-- `annotateInput ? annotateInput.split(",") : []`. -/
def annotateTokens (a : String) : List String :=
  if a = "" then [] else jsSplit ',' a

/-- JavaScript Set.prototype.add on the insertion-ordered element list. -/
def addSet (s : List String) (x : String) : List String :=
  if x ∈ s then s else s ++ [x]

/-- Double-quote a string as JSON.stringify does for the plain values
reaching the annotate error messages. -/
def jsonQuote (s : String) : String := "\"" ++ s ++ "\""

/-- The switch of the annotate loop, after the token has been trimmed:
the token must be exactly `errors` or `warnings`; anything else raises,
with a dedicated message when an all/none sentinel is reused inside the
comma list. -/
def annotateSwitch (annotate : List String) (v : String) : Except String (List String) :=
  if v = "errors" then .ok (addSet annotate "error")
  else if v = "warnings" then .ok (addSet annotate "warning")
  else if isAnnotateAll v || isAnnotateNone v then
    .error ("invalid value " ++ jsonQuote v ++ " in comma-separated annotate")
  else .error ("invalid value " ++ jsonQuote v ++ " for annotate")

/-- One iteration of the annotate loop: trim the token, then switch. -/
def annotateStep (annotate : List String) (value : String) : Except String (List String) :=
  annotateSwitch annotate (jsTrim value)

/-- The annotate loop: fold the comma tokens through `annotateStep`,
stopping at the first invalid token. -/
def annotateFold (annotate : List String) : List String → Except String (List String)
  | [] => .ok annotate
  | v :: rest =>
    match annotateStep annotate v with
    | .ok annotate2 => annotateFold annotate2 rest
    | .error e => .error e

def annotateFromExpanded (a : String) : Except String (List String) :=
  annotateFold [] (annotateTokens a)

/-- The annotate pipeline of `getArgs`, before the no-comments
override: trim and default, rewrite sentinels, split on commas, and
fold the tokens into the severity set. -/
def processAnnotate (directive : String) : Except String (List String) :=
  annotateFromExpanded (expandAnnotate (normalizeAnnotate directive))

/-! ## Argument vector (src/helpers.ts lines 56-163) -/

/-- Flags whose presence anywhere in the argument vector disables
annotations (src/helpers.ts lines 42-48). -/
def flagsWithoutCommentingSupport : List String :=
  ["--verifytypes", "--stats", "--verbose", "--createstub", "--dependencies"]

/-- `path.join(pyrightPath, "package", "index.js")`, modelled as posix
segment concatenation. -/
def joinEntry (pyrightPath : String) : String :=
  pyrightPath ++ "/package/index.js"

/-- The version at which pyright renamed `--typeshed-path` and
`--venv-path` to their dash-free spellings. -/
def semver_1_1_309 : SemVer := ⟨1, 1, 309, []⟩

/-- The sequential conditional pushes of `getArgs` (src/helpers.ts
lines 60-152): entry point first, then each option in source order. -/
def baseArgs (cfg : Inputs) (pyrightPath : String) (pyrightVersion : SemVer) : List String :=
  let useDashedFlags := semverCompare pyrightVersion semver_1_1_309 == -1
  let args := [joinEntry pyrightPath]
  let args := if cfg.createStub ≠ "" then args ++ ["--createstub", cfg.createStub] else args
  let args := if cfg.dependencies ≠ "" then args ++ ["--dependencies", cfg.dependencies] else args
  let args := if cfg.ignoreExternal ≠ "" then args ++ ["--ignoreexternal"] else args
  let args := if cfg.level ≠ "" then args ++ ["--level", cfg.level] else args
  let args := if cfg.project ≠ "" then args ++ ["--project", cfg.project] else args
  let args := if cfg.pythonPlatform ≠ "" then args ++ ["--pythonplatform", cfg.pythonPlatform] else args
  let args := if cfg.pythonPath ≠ "" then args ++ ["--pythonpath", cfg.pythonPath] else args
  let args := if cfg.pythonVersion ≠ "" then args ++ ["--pythonversion", cfg.pythonVersion] else args
  let args := if getBooleanInput cfg.skipUnannotated false then args ++ ["--skipunannotated"] else args
  let args := if getBooleanInput cfg.stats false then args ++ ["--stats"] else args
  let args := if cfg.typeshedPath ≠ "" then
      args ++ [if useDashedFlags then "--typeshed-path" else "--typeshedpath", cfg.typeshedPath]
    else args
  let args := if cfg.venvPath ≠ "" then
      args ++ [if useDashedFlags then "--venv-path" else "--venvpath", cfg.venvPath]
    else args
  let args := if getBooleanInput cfg.verbose false then args ++ ["--lib"] else args
  let args := if cfg.verifyTypes ≠ "" then args ++ ["--verifytypes", cfg.verifyTypes] else args
  let args := if getBooleanInput cfg.warnings false then args ++ ["--warnings"] else args
  let args := if getBooleanInput cfg.lib false then args ++ ["--lib"] else args
  args

/-- The full argument vector: the conditional pushes followed by the
extra-args tokens; a malformed extra-args input propagates its error. -/
def argVector (cfg : Inputs) (pyrightPath : String) (pyrightVersion : SemVer) :
    Except String (List String) :=
  match parseExtraTokens cfg.extraArgs with
  | .ok extra => .ok (baseArgs cfg pyrightPath pyrightVersion ++ extra)
  | .error e => .error e

/-- The result record of `getArgs`.  The pyrightVersion field of the
source record is the raw registry version string obtained from the
network collaborator and is not modelled. -/
structure Args where
  workingDirectory : String
  annotate : List String
  args : List String
deriving DecidableEq

/-- The pure core of `getArgs` (src/helpers.ts lines 56-212), given
the downloaded package path and parsed version: build the vector,
process the annotate directive, then clear the annotation set when
no-comments is set or a commenting-unfriendly flag is present. -/
def getArgs (cfg : Inputs) (pyrightPath : String) (pyrightVersion : SemVer) : Except String Args :=
  match argVector cfg pyrightPath pyrightVersion with
  | .error e => .error e
  | .ok args =>
    match processAnnotate cfg.annotate with
    | .error e => .error e
    | .ok annotate =>
      let noComments :=
        getBooleanInput cfg.noComments false ||
          args.any fun a => decide (a ∈ flagsWithoutCommentingSupport)
      .ok { workingDirectory := cfg.workingDirectory,
            annotate := if noComments then [] else annotate, args }

/-! ## Diagnostic formatting (src/helpers.ts lines 307-332) -/

structure Position where
  line : Nat
  character : Nat
deriving DecidableEq

/-- A source range; the source field name `end` is a Lean keyword and
is rendered `endPos`. -/
structure Range where
  start : Position
  endPos : Position
deriving DecidableEq

/-- Modelled from the spec: `isEmptyRange` comes from ./schema.ts,
which is not among the provided repository sources; per the spec, a
range is empty exactly when its start equals its end. -/
def isEmptyRange (r : Range) : Bool :=
  r.start.line == r.endPos.line && r.start.character == r.endPos.character

structure Diagnostic where
  file : Option String
  range : Option Range
  severity : String
  message : String
  rule : Option String
deriving DecidableEq

def ruleSuffix : Option String → String
  | some rule => " (" ++ rule ++ ")"
  | none => ""

/-- Mirrors `diagnosticToString`: in human-log mode the file, the
1-based position of a non-empty range, and the severity prefix the
message; in command mode only the message and the rule suffix appear. -/
def diagnosticToString (diag : Diagnostic) (forCommand : Bool) : String :=
  let message := ""
  let message :=
    if !forCommand then
      let message :=
        match diag.file with
        | some f => message ++ f ++ ":"
        | none => message
      let message :=
        match diag.range with
        | some r =>
          if !isEmptyRange r then
            message ++ toString (r.start.line + 1) ++ ":" ++ toString (r.start.character + 1) ++ " -"
          else message
        | none => message
      message ++ " " ++ diag.severity ++ ": "
    else message
  let message := message ++ diag.message
  message ++ ruleSuffix diag.rule

/-! ## Concrete configurations used in the theorems below -/

/-- The all-absent configuration: every input empty, as `core.getInput`
returns for an unsupplied input. -/
def emptyInputs : Inputs :=
  { workingDirectory := "", createStub := "", dependencies := "", ignoreExternal := "",
    level := "", project := "", pythonPlatform := "", pythonPath := "", pythonVersion := "",
    skipUnannotated := "", stats := "", typeshedPath := "", venvPath := "", verbose := "",
    verifyTypes := "", warnings := "", lib := "", extraArgs := "", annotate := "",
    noComments := "" }

/-- A configuration with the verbose option set and a level value that
happens to spell the --verbose flag. -/
def verboseLevelInputs : Inputs := { emptyInputs with level := "--verbose", verbose := "true" }


/-! ## Helper lemmas -/

theorem append_ite {α : Type} (c : Prop) [Decidable c] (xs ys : List α) :
    (if c then xs ++ ys else xs) = xs ++ (if c then ys else []) := by
  split <;> simp

theorem mem_ite_seg {α : Type} {x : α} {c : Prop} [Decidable c] {l : List α}
    (h : x ∈ (if c then l else [])) : x ∈ l := by
  split at h
  · exact h
  · cases h

theorem isInfix_append_left {α : Type} {seg l₂ : List α} (l₁ : List α)
    (h : List.IsInfix seg l₂) : List.IsInfix seg (l₁ ++ l₂) := by
  obtain ⟨s, t, hs⟩ := h
  exact ⟨l₁ ++ s, t, by rw [← hs]; simp⟩

theorem isInfix_self_append {α : Type} (seg rest : List α) : List.IsInfix seg (seg ++ rest) :=
  ⟨[], rest, by simp⟩

theorem ne_empty_of_jsToUpper {s u : String} (h : jsToUpper s = u) (hu : u ≠ "") : s ≠ "" := by
  intro h0
  subst h0
  rw [show jsToUpper "" = "" from rfl] at h
  exact hu h.symm

theorem joinEntry_ne_verbose (p : String) : joinEntry p ≠ "--verbose" := by
  intro h
  have hlen := congrArg String.length h
  rw [joinEntry, String.length_append] at hlen
  rw [show ("/package/index.js" : String).length = 17 from by decide] at hlen
  rw [show ("--verbose" : String).length = 9 from by decide] at hlen
  omega

theorem extraFold_all_str (msg : String) (toks : List ShellTok) :
    ∀ acc : List String, (∀ t ∈ toks, t.isStr = true) →
      extraFold msg acc toks = Except.ok (acc ++ strTokens toks) := by
  induction toks with
  | nil => intro acc _; simp [extraFold, strTokens]
  | cons t rest ih =>
    intro acc hall
    have ht : t.isStr = true := hall t (by simp)
    match t with
    | ShellTok.str s =>
      have hrest : ∀ u ∈ rest, u.isStr = true := fun u hu => hall u (by simp [hu])
      rw [show extraFold msg acc (ShellTok.str s :: rest) = extraFold msg (acc ++ [s]) rest
        from rfl]
      rw [ih (acc ++ [s]) hrest]
      simp [strTokens]
    | ShellTok.op o => simp [ShellTok.isStr] at ht
    | ShellTok.unterminated => simp [ShellTok.isStr] at ht

theorem extraFold_has_bad (msg : String) (toks : List ShellTok) :
    ∀ acc : List String, (∃ t ∈ toks, t.isStr = false) →
      extraFold msg acc toks = Except.error ("malformed extra-args: " ++ msg) := by
  induction toks with
  | nil => intro acc h; simp at h
  | cons t rest ih =>
    intro acc h
    match t with
    | ShellTok.str s =>
      have hrest : ∃ u ∈ rest, u.isStr = false := by
        rcases h with ⟨u, hu, hf⟩
        rcases List.mem_cons.mp hu with rfl | hu2
        · simp [ShellTok.isStr] at hf
        · exact ⟨u, hu2, hf⟩
      rw [show extraFold msg acc (ShellTok.str s :: rest) = extraFold msg (acc ++ [s]) rest
        from rfl]
      exact ih (acc ++ [s]) hrest
    | ShellTok.op o => rfl
    | ShellTok.unterminated => rfl

theorem mem_addSet {x y : String} {s : List String} (h : x ∈ addSet s y) : x ∈ s ∨ x = y := by
  unfold addSet at h
  split at h
  · exact Or.inl h
  · rcases List.mem_append.mp h with h1 | h1
    · exact Or.inl h1
    · simp at h1
      exact Or.inr h1

theorem annotateStep_ok {acc acc2 : List String} {v : String}
    (h : annotateStep acc v = Except.ok acc2) :
    (jsTrim v = "errors" ∧ acc2 = addSet acc "error") ∨
    (jsTrim v = "warnings" ∧ acc2 = addSet acc "warning") := by
  unfold annotateStep annotateSwitch at h
  split at h
  · exact Or.inl ⟨by assumption, (Except.ok.inj h).symm⟩
  · split at h
    · exact Or.inr ⟨by assumption, (Except.ok.inj h).symm⟩
    · split at h <;> cases h

theorem annotateFold_ok (l : List String) :
    ∀ acc s : List String, annotateFold acc l = Except.ok s →
      (∀ x ∈ s, x ∈ acc ∨ x = "error" ∨ x = "warning") ∧
      (∀ t ∈ l, jsTrim t = "errors" ∨ jsTrim t = "warnings") := by
  induction l with
  | nil =>
    intro acc s h
    simp only [annotateFold] at h
    cases h
    exact ⟨fun x hx => Or.inl hx, by simp⟩
  | cons t rest ih =>
    intro acc s h
    cases hstep : annotateStep acc t with
    | error e =>
      simp only [annotateFold, hstep] at h
      exact Except.noConfusion h
    | ok acc2 =>
      simp only [annotateFold, hstep] at h
      obtain ⟨h1, h2⟩ := ih acc2 s h
      rcases annotateStep_ok hstep with ⟨hv, hacc⟩ | ⟨hv, hacc⟩
      · subst hacc
        refine ⟨fun x hx => ?_, fun u hu => ?_⟩
        · rcases h1 x hx with hx2 | hx2
          · rcases mem_addSet hx2 with h3 | h3
            · exact Or.inl h3
            · exact Or.inr (Or.inl h3)
          · exact Or.inr hx2
        · rcases List.mem_cons.mp hu with rfl | hu2
          · exact Or.inl hv
          · exact h2 u hu2
      · subst hacc
        refine ⟨fun x hx => ?_, fun u hu => ?_⟩
        · rcases h1 x hx with hx2 | hx2
          · rcases mem_addSet hx2 with h3 | h3
            · exact Or.inl h3
            · exact Or.inr (Or.inr h3)
          · exact Or.inr hx2
        · rcases List.mem_cons.mp hu with rfl | hu2
          · exact Or.inr hv
          · exact h2 u hu2

/-! ## Claim theorems -/

/-- C5: an explicitly supplied version spec that parses as a semantic
version resolves to its normalised form with no network access; one
that does not parse fails with the invalid-version error; and with
neither a version nor a pylance version supplied the unvalidated
sentinel latest is returned. -/
theorem version_resolution_local (spec pylance : String) :
    (∀ sv : SemVer, parseSemVer spec = some sv →
      getPyrightVersion spec pylance = Except.ok (VersionResolution.resolved sv.format)) ∧
    (spec ≠ "" → parseSemVer spec = none →
      getPyrightVersion spec pylance = Except.error ("Invalid Version: " ++ spec)) ∧
    getPyrightVersion "" "" = Except.ok (VersionResolution.resolved "latest") := by
  refine ⟨?_, ?_, by decide⟩
  · intro sv hsv
    have hne : spec ≠ "" := by
      intro h0
      rw [h0, show parseSemVer "" = none from by decide] at hsv
      cases hsv
    unfold getPyrightVersion
    rw [if_pos hne, hsv]
  · intro hne hnone
    unfold getPyrightVersion
    rw [if_pos hne, hnone]

theorem version_resolution_local_witness :
    getPyrightVersion " v1.2.3-alpha.1+build.7 " "" =
      Except.ok (VersionResolution.resolved "1.2.3-alpha.1") := by
  have h := (version_resolution_local " v1.2.3-alpha.1+build.7 " "").1
    ⟨1, 2, 3, [PreId.alpha "alpha", PreId.num 1]⟩ (by decide)
  exact h.trans (by decide)

/-- C8: a boolean option reads true exactly when the raw input is
non-empty and uppercases to TRUE; an absent (empty) input yields the
supplied default. -/
theorem boolean_input_semantics (input : String) :
    (getBooleanInput input false = true ↔ input ≠ "" ∧ jsToUpper input = "TRUE") ∧
    (∀ d : Bool, getBooleanInput "" d = d) := by
  constructor
  · unfold getBooleanInput
    split
    · simp [*]
    · simp [*, beq_iff_eq]
  · intro d
    rfl

theorem boolean_input_semantics_witness : getBooleanInput "TrUe" false = true :=
  (boolean_input_semantics "TrUe").1.mpr (by decide)

/-- C2 as stated is false on the code: the directive NONE trims to a
string that case-insensitively equals none, yet the builder raises the
invalid-annotate error instead of returning the empty set (the none
sentinel is compared case-sensitively). -/
theorem annotate_none_uppercase_counterexample :
    processAnnotate "NONE" ≠ Except.ok [] ∧
    processAnnotate "NONE" =
      Except.error ("invalid value " ++ jsonQuote "NONE" ++ " for annotate") := by
  constructor
  · decide
  · decide

/-- C2 amended: a directive whose trim equals none exactly or
uppercases to FALSE yields the empty set; a directive whose trim is
empty, equals all exactly, or uppercases to TRUE yields the error and
warning pair (the none/all sentinels match case-sensitively, the
boolean sentinels case-insensitively). -/
theorem annotate_sentinel_semantics (directive : String) :
    (jsTrim directive = "none" ∨ jsToUpper (jsTrim directive) = "FALSE" →
      processAnnotate directive = Except.ok []) ∧
    (jsTrim directive = "" ∨ jsTrim directive = "all" ∨ jsToUpper (jsTrim directive) = "TRUE" →
      processAnnotate directive = Except.ok ["error", "warning"]) := by
  constructor
  · intro h
    rcases h with h | h
    · simp only [processAnnotate, normalizeAnnotate, h]
      decide
    · have hne : jsTrim directive ≠ "" := ne_empty_of_jsToUpper h (by decide)
      have hnone : isAnnotateNone (jsTrim directive) = true := by
        simp [isAnnotateNone, h]
      simp only [processAnnotate, normalizeAnnotate, if_neg hne, expandAnnotate, hnone,
        if_true]
      decide
  · intro h
    rcases h with h | h | h
    · simp only [processAnnotate, normalizeAnnotate, h]
      decide
    · have hne : jsTrim directive ≠ "" := by
        rw [h]
        decide
      simp only [processAnnotate, normalizeAnnotate, if_neg hne, h]
      decide
    · have hne : jsTrim directive ≠ "" := ne_empty_of_jsToUpper h (by decide)
      have hnotnone : jsTrim directive ≠ "none" := by
        intro h0
        rw [h0] at h
        exact absurd h (by decide)
      have hnone : isAnnotateNone (jsTrim directive) = false := by
        simp [isAnnotateNone, h, hnotnone]
      have hall : isAnnotateAll (jsTrim directive) = true := by
        simp [isAnnotateAll, h]
      simp only [processAnnotate, normalizeAnnotate, if_neg hne, expandAnnotate, hnone,
        hall, if_true, Bool.false_eq_true, if_false]
      decide

theorem annotate_sentinel_semantics_witness : processAnnotate "False" = Except.ok [] :=
  (annotate_sentinel_semantics "False").1 (Or.inr (by decide))

/-- C9: a successfully built annotation set only ever contains the
elements error and warning, and success forces every comma-separated
token of the expanded directive to be exactly errors or warnings after
trimming (any other token raises instead). -/
theorem annotate_set_invariant (directive : String) (s : List String)
    (h : processAnnotate directive = Except.ok s) :
    (∀ x ∈ s, x = "error" ∨ x = "warning") ∧
    (∀ t ∈ annotateTokens (expandAnnotate (normalizeAnnotate directive)),
      jsTrim t = "errors" ∨ jsTrim t = "warnings") := by
  have h2 : annotateFold [] (annotateTokens (expandAnnotate (normalizeAnnotate directive))) =
      Except.ok s := h
  obtain ⟨h3, h4⟩ := annotateFold_ok _ [] s h2
  refine ⟨fun x hx => ?_, h4⟩
  rcases h3 x hx with h5 | h5
  · cases h5
  · exact h5

theorem annotate_set_invariant_witness : "error" = "error" ∨ "error" = "warning" :=
  (annotate_set_invariant "errors" ["error"] (by decide)).1 "error" (by decide)

/-- C4 (tokenizer modelled from the spec, shell-quote not being among
the repository sources): a non-empty extra-args value whose shell
tokens are all plain strings contributes exactly those strings in
order; any non-string token, such as the one produced by an
unterminated quote or a shell operator, aborts with the
malformed-extra-args error embedding the raw value; and the spec
example holds concretely. -/
theorem extra_args_tokenization (extra : String) (hne : extra ≠ "") :
    ((∀ t ∈ shellParse extra, t.isStr = true) →
      parseExtraTokens extra = Except.ok (strTokens (shellParse extra))) ∧
    ((∃ t ∈ shellParse extra, t.isStr = false) →
      parseExtraTokens extra = Except.error ("malformed extra-args: " ++ extra)) ∧
    shellParse "a \"b c\"" = [ShellTok.str "a", ShellTok.str "b c"] ∧
    parseExtraTokens "a \"b c\"" = Except.ok ["a", "b c"] ∧
    parseExtraTokens "a \"b" = Except.error ("malformed extra-args: " ++ "a \"b") := by
  refine ⟨?_, ?_, by decide, by decide, by decide⟩
  · intro hall
    unfold parseExtraTokens
    rw [if_pos hne, extraFold_all_str extra (shellParse extra) [] hall]
    simp
  · intro hbad
    unfold parseExtraTokens
    rw [if_pos hne, extraFold_has_bad extra (shellParse extra) [] hbad]

theorem extra_args_tokenization_witness :
    parseExtraTokens "a \"b c\"" = Except.ok (strTokens (shellParse "a \"b c\"")) :=
  (extra_args_tokenization "a \"b c\"" (by decide)).1 (by decide)

theorem baseArgs_eq (cfg : Inputs) (p : String) (v : SemVer) :
    baseArgs cfg p v =
      [joinEntry p] ++
      (if cfg.createStub ≠ "" then ["--createstub", cfg.createStub] else []) ++
      (if cfg.dependencies ≠ "" then ["--dependencies", cfg.dependencies] else []) ++
      (if cfg.ignoreExternal ≠ "" then ["--ignoreexternal"] else []) ++
      (if cfg.level ≠ "" then ["--level", cfg.level] else []) ++
      (if cfg.project ≠ "" then ["--project", cfg.project] else []) ++
      (if cfg.pythonPlatform ≠ "" then ["--pythonplatform", cfg.pythonPlatform] else []) ++
      (if cfg.pythonPath ≠ "" then ["--pythonpath", cfg.pythonPath] else []) ++
      (if cfg.pythonVersion ≠ "" then ["--pythonversion", cfg.pythonVersion] else []) ++
      (if getBooleanInput cfg.skipUnannotated false then ["--skipunannotated"] else []) ++
      (if getBooleanInput cfg.stats false then ["--stats"] else []) ++
      (if cfg.typeshedPath ≠ "" then
        [if semverCompare v semver_1_1_309 == -1 then "--typeshed-path" else "--typeshedpath",
          cfg.typeshedPath]
      else []) ++
      (if cfg.venvPath ≠ "" then
        [if semverCompare v semver_1_1_309 == -1 then "--venv-path" else "--venvpath",
          cfg.venvPath]
      else []) ++
      (if getBooleanInput cfg.verbose false then ["--lib"] else []) ++
      (if cfg.verifyTypes ≠ "" then ["--verifytypes", cfg.verifyTypes] else []) ++
      (if getBooleanInput cfg.warnings false then ["--warnings"] else []) ++
      (if getBooleanInput cfg.lib false then ["--lib"] else []) := by
  simp only [baseArgs, append_ite]

/-- C7: the built vector is the artifact entry point followed by each
present option's flags in the fixed source enumeration order, with the
deprecated lib alias appended after warnings so that --lib appears
twice (not deduplicated) when both verbose and lib are set, then the
extra-args tokens; and building twice from the same configuration and
version yields identical vectors. -/
theorem argVector_fixed_order (cfg : Inputs) (p : String) (v : SemVer) (extra : List String)
    (h : parseExtraTokens cfg.extraArgs = Except.ok extra) :
    argVector cfg p v =
      Except.ok
        ([joinEntry p] ++
          (if cfg.createStub ≠ "" then ["--createstub", cfg.createStub] else []) ++
          (if cfg.dependencies ≠ "" then ["--dependencies", cfg.dependencies] else []) ++
          (if cfg.ignoreExternal ≠ "" then ["--ignoreexternal"] else []) ++
          (if cfg.level ≠ "" then ["--level", cfg.level] else []) ++
          (if cfg.project ≠ "" then ["--project", cfg.project] else []) ++
          (if cfg.pythonPlatform ≠ "" then ["--pythonplatform", cfg.pythonPlatform] else []) ++
          (if cfg.pythonPath ≠ "" then ["--pythonpath", cfg.pythonPath] else []) ++
          (if cfg.pythonVersion ≠ "" then ["--pythonversion", cfg.pythonVersion] else []) ++
          (if getBooleanInput cfg.skipUnannotated false then ["--skipunannotated"] else []) ++
          (if getBooleanInput cfg.stats false then ["--stats"] else []) ++
          (if cfg.typeshedPath ≠ "" then
            [if semverCompare v semver_1_1_309 == -1 then "--typeshed-path"
              else "--typeshedpath", cfg.typeshedPath]
          else []) ++
          (if cfg.venvPath ≠ "" then
            [if semverCompare v semver_1_1_309 == -1 then "--venv-path" else "--venvpath",
              cfg.venvPath]
          else []) ++
          (if getBooleanInput cfg.verbose false then ["--lib"] else []) ++
          (if cfg.verifyTypes ≠ "" then ["--verifytypes", cfg.verifyTypes] else []) ++
          (if getBooleanInput cfg.warnings false then ["--warnings"] else []) ++
          (if getBooleanInput cfg.lib false then ["--lib"] else []) ++
          extra) ∧
    (getBooleanInput cfg.verbose false = true → getBooleanInput cfg.lib false = true →
      2 ≤ List.count "--lib" (baseArgs cfg p v)) ∧
    argVector cfg p v = argVector cfg p v := by
  refine ⟨?_, ?_, rfl⟩
  · unfold argVector
    rw [h, baseArgs_eq]
  · intro hverb hlib
    rw [baseArgs_eq, if_pos hverb, if_pos hlib]
    simp only [List.count_append]
    rw [show List.count "--lib" ["--lib"] = 1 from by decide]
    omega

theorem argVector_fixed_order_witness :
    argVector { emptyInputs with level := "5", stats := "true" } "/p" ⟨1, 1, 309, []⟩ =
      Except.ok ["/p/package/index.js", "--level", "5", "--stats"] :=
  ((argVector_fixed_order { emptyInputs with level := "5", stats := "true" } "/p"
    ⟨1, 1, 309, []⟩ [] (by decide)).1).trans (by decide)

/-- C1: with a non-empty typeshed-path or venv-path option, the flag
spelling is chosen by the strict semantic-version comparison against
1.1.309: a resolved version comparing strictly below it appends the
dashed spelling with the option value, and 1.1.309 itself or anything
greater appends the dash-free spelling with the option value. -/
theorem flag_spelling_by_version (cfg : Inputs) (p : String) (v : SemVer) (args : List String)
    (h : argVector cfg p v = Except.ok args) :
    (cfg.typeshedPath ≠ "" →
      (semverCompare v semver_1_1_309 = -1 →
        List.IsInfix ["--typeshed-path", cfg.typeshedPath] args) ∧
      (semverCompare v semver_1_1_309 ≠ -1 →
        List.IsInfix ["--typeshedpath", cfg.typeshedPath] args)) ∧
    (cfg.venvPath ≠ "" →
      (semverCompare v semver_1_1_309 = -1 →
        List.IsInfix ["--venv-path", cfg.venvPath] args) ∧
      (semverCompare v semver_1_1_309 ≠ -1 →
        List.IsInfix ["--venvpath", cfg.venvPath] args)) := by
  unfold argVector at h
  cases hx : parseExtraTokens cfg.extraArgs with
  | error e =>
    rw [hx] at h
    exact Except.noConfusion h
  | ok extra =>
    rw [hx] at h
    obtain rfl : args = baseArgs cfg p v ++ extra := (Except.ok.inj h).symm
    rw [baseArgs_eq]
    simp only [List.append_assoc]
    constructor
    · intro hts
      constructor
      · intro hv
        have hud : (semverCompare v semver_1_1_309 == -1) = true := by
          rw [hv]
          decide
        apply isInfix_append_left
        apply isInfix_append_left
        apply isInfix_append_left
        apply isInfix_append_left
        apply isInfix_append_left
        apply isInfix_append_left
        apply isInfix_append_left
        apply isInfix_append_left
        apply isInfix_append_left
        apply isInfix_append_left
        apply isInfix_append_left
        rw [if_pos hts, hud]
        exact isInfix_self_append _ _
      · intro hv
        have hud : (semverCompare v semver_1_1_309 == -1) = false := by
          rw [beq_eq_false_iff_ne]
          exact hv
        apply isInfix_append_left
        apply isInfix_append_left
        apply isInfix_append_left
        apply isInfix_append_left
        apply isInfix_append_left
        apply isInfix_append_left
        apply isInfix_append_left
        apply isInfix_append_left
        apply isInfix_append_left
        apply isInfix_append_left
        apply isInfix_append_left
        rw [if_pos hts, hud]
        exact isInfix_self_append _ _
    · intro hvp
      constructor
      · intro hv
        have hud : (semverCompare v semver_1_1_309 == -1) = true := by
          rw [hv]
          decide
        apply isInfix_append_left
        apply isInfix_append_left
        apply isInfix_append_left
        apply isInfix_append_left
        apply isInfix_append_left
        apply isInfix_append_left
        apply isInfix_append_left
        apply isInfix_append_left
        apply isInfix_append_left
        apply isInfix_append_left
        apply isInfix_append_left
        apply isInfix_append_left
        rw [if_pos hvp, hud]
        exact isInfix_self_append _ _
      · intro hv
        have hud : (semverCompare v semver_1_1_309 == -1) = false := by
          rw [beq_eq_false_iff_ne]
          exact hv
        apply isInfix_append_left
        apply isInfix_append_left
        apply isInfix_append_left
        apply isInfix_append_left
        apply isInfix_append_left
        apply isInfix_append_left
        apply isInfix_append_left
        apply isInfix_append_left
        apply isInfix_append_left
        apply isInfix_append_left
        apply isInfix_append_left
        apply isInfix_append_left
        rw [if_pos hvp, hud]
        exact isInfix_self_append _ _

theorem flag_spelling_by_version_witness :
    List.IsInfix ["--typeshed-path", "ts"] ["/p/package/index.js", "--typeshed-path", "ts"] :=
  ((flag_spelling_by_version { emptyInputs with typeshedPath := "ts" } "/p" ⟨1, 1, 308, []⟩
    ["/p/package/index.js", "--typeshed-path", "ts"] (by decide)).1 (by decide)).1 (by decide)

/-- C3: if the no-comments option reads true, or the built vector
contains any of the flags without commenting support (--verifytypes,
--stats, --verbose, --createstub, --dependencies), the returned
annotation set is empty regardless of the annotate directive. -/
theorem suppression_forces_empty_annotations (cfg : Inputs) (p : String) (v : SemVer)
    (a : Args) (h : getArgs cfg p v = Except.ok a)
    (hcond : getBooleanInput cfg.noComments false = true ∨
      ∃ x ∈ a.args, x ∈ flagsWithoutCommentingSupport) :
    a.annotate = [] := by
  unfold getArgs at h
  cases hx : argVector cfg p v with
  | error e =>
    rw [hx] at h
    exact Except.noConfusion h
  | ok args =>
    rw [hx] at h
    cases ha : processAnnotate cfg.annotate with
    | error e =>
      rw [ha] at h
      exact Except.noConfusion h
    | ok ann =>
      rw [ha] at h
      obtain rfl := (Except.ok.inj h).symm
      have hno : (getBooleanInput cfg.noComments false ||
          args.any fun x => decide (x ∈ flagsWithoutCommentingSupport)) = true := by
        rcases hcond with hc | hc
        · rw [hc, Bool.true_or]
        · obtain ⟨x, hx1, hx2⟩ := hc
          rw [Bool.or_eq_true]
          exact Or.inr (List.any_eq_true.mpr ⟨x, hx1, decide_eq_true hx2⟩)
      simp only [hno, if_true]

theorem suppression_forces_empty_annotations_witness :
    ({ workingDirectory := "", annotate := [],
       args := ["/p/package/index.js", "--stats"] } : Args).annotate = [] :=
  suppression_forces_empty_annotations { emptyInputs with stats := "true", annotate := "all" }
    "/p" ⟨1, 1, 400, []⟩ _ (by decide) (Or.inr ⟨"--stats", by decide, by decide⟩)

/-- C6: formatting a diagnostic whose range has equal start and end
(the emptiness test) with file a.py, severity error, message bad and
rule reportX yields exactly the position-free human-log line; the same
diagnostic in command-echo mode yields only message and rule; and a
non-empty range inserts the 1-based line:column pair derived from the
0-based source positions. -/
theorem diagnostic_formatting :
    diagnosticToString
        { file := some "a.py", range := some ⟨⟨4, 2⟩, ⟨4, 2⟩⟩, severity := "error",
          message := "bad", rule := some "reportX" } false = "a.py: error: bad (reportX)" ∧
    diagnosticToString
        { file := some "a.py", range := some ⟨⟨4, 2⟩, ⟨4, 2⟩⟩, severity := "error",
          message := "bad", rule := some "reportX" } true = "bad (reportX)" ∧
    diagnosticToString
        { file := some "a.py", range := some ⟨⟨4, 2⟩, ⟨5, 0⟩⟩, severity := "error",
          message := "bad", rule := some "reportX" } false = "a.py:5:3 - error: bad (reportX)" ∧
    (∀ (f sev msg : String) (r : Range) (rl : Option String), isEmptyRange r = false →
      diagnosticToString
          { file := some f, range := some r, severity := sev, message := msg, rule := rl }
          false =
        f ++ ":" ++ toString (r.start.line + 1) ++ ":" ++ toString (r.start.character + 1) ++
          " -" ++ " " ++ sev ++ ": " ++ msg ++ ruleSuffix rl) := by
  refine ⟨by decide, by decide, by decide, ?_⟩
  intro f sev msg r rl hr
  simp [diagnosticToString, hr]

theorem diagnostic_formatting_witness :
    diagnosticToString
        { file := some "b.py", range := some ⟨⟨0, 0⟩, ⟨0, 4⟩⟩, severity := "warning",
          message := "m", rule := none } false =
      "b.py" ++ ":" ++ toString (0 + 1) ++ ":" ++ toString (0 + 1) ++ " -" ++ " " ++
        "warning" ++ ": " ++ "m" ++ ruleSuffix none :=
  diagnostic_formatting.2.2.2 "b.py" "warning" "m" ⟨⟨0, 0⟩, ⟨0, 4⟩⟩ none (by decide)

/-- C10 as stated is false on the code: in this configuration the
verbose option is true and extra-args is empty, yet the built vector
contains --verbose, because the level option value spells it. -/
theorem verbose_option_counterexample :
    getBooleanInput verboseLevelInputs.verbose false = true ∧
    verboseLevelInputs.extraArgs = "" ∧
    argVector verboseLevelInputs "/p" ⟨1, 1, 400, []⟩ =
      Except.ok ["/p/package/index.js", "--level", "--verbose", "--lib"] ∧
    "--verbose" ∈ ["/p/package/index.js", "--level", "--verbose", "--lib"] := by
  refine ⟨by decide, by decide, by decide, by decide⟩

/-- C10 amended: when the verbose option is true, no value-carrying
option value equals --verbose, and the extra-args tokens do not
include --verbose, the built vector contains --lib (the spelling of
verbose) and does not contain --verbose; the --verbose member of the
suppression set is therefore never triggered by the verbose option
itself. -/
theorem verbose_spelled_lib (cfg : Inputs) (p : String) (v : SemVer) (extra : List String)
    (hx : parseExtraTokens cfg.extraArgs = Except.ok extra)
    (hverb : getBooleanInput cfg.verbose false = true)
    (h1 : cfg.createStub ≠ "--verbose") (h2 : cfg.dependencies ≠ "--verbose")
    (h3 : cfg.level ≠ "--verbose") (h4 : cfg.project ≠ "--verbose")
    (h5 : cfg.pythonPlatform ≠ "--verbose") (h6 : cfg.pythonPath ≠ "--verbose")
    (h7 : cfg.pythonVersion ≠ "--verbose") (h8 : cfg.typeshedPath ≠ "--verbose")
    (h9 : cfg.venvPath ≠ "--verbose") (h10 : cfg.verifyTypes ≠ "--verbose")
    (hextra : "--verbose" ∉ extra) :
    argVector cfg p v = Except.ok (baseArgs cfg p v ++ extra) ∧
    "--lib" ∈ baseArgs cfg p v ++ extra ∧
    "--verbose" ∉ baseArgs cfg p v ++ extra := by
  refine ⟨by unfold argVector; rw [hx], ?_, ?_⟩
  · rw [baseArgs_eq]
    simp [hverb]
  · intro hmem
    rw [baseArgs_eq] at hmem
    simp only [List.append_assoc, List.mem_append] at hmem
    rcases hmem with hm | hm | hm | hm | hm | hm | hm | hm | hm | hm | hm | hm | hm | hm |
      hm | hm | hm | hm
    · simp only [List.mem_singleton] at hm
      exact joinEntry_ne_verbose p hm.symm
    · have hm2 := mem_ite_seg hm
      simp only [List.mem_cons, List.not_mem_nil, or_false] at hm2
      rcases hm2 with hm3 | hm3
      · exact absurd hm3 (by decide)
      · exact h1 hm3.symm
    · have hm2 := mem_ite_seg hm
      simp only [List.mem_cons, List.not_mem_nil, or_false] at hm2
      rcases hm2 with hm3 | hm3
      · exact absurd hm3 (by decide)
      · exact h2 hm3.symm
    · have hm2 := mem_ite_seg hm
      simp only [List.mem_singleton] at hm2
      exact absurd hm2 (by decide)
    · have hm2 := mem_ite_seg hm
      simp only [List.mem_cons, List.not_mem_nil, or_false] at hm2
      rcases hm2 with hm3 | hm3
      · exact absurd hm3 (by decide)
      · exact h3 hm3.symm
    · have hm2 := mem_ite_seg hm
      simp only [List.mem_cons, List.not_mem_nil, or_false] at hm2
      rcases hm2 with hm3 | hm3
      · exact absurd hm3 (by decide)
      · exact h4 hm3.symm
    · have hm2 := mem_ite_seg hm
      simp only [List.mem_cons, List.not_mem_nil, or_false] at hm2
      rcases hm2 with hm3 | hm3
      · exact absurd hm3 (by decide)
      · exact h5 hm3.symm
    · have hm2 := mem_ite_seg hm
      simp only [List.mem_cons, List.not_mem_nil, or_false] at hm2
      rcases hm2 with hm3 | hm3
      · exact absurd hm3 (by decide)
      · exact h6 hm3.symm
    · have hm2 := mem_ite_seg hm
      simp only [List.mem_cons, List.not_mem_nil, or_false] at hm2
      rcases hm2 with hm3 | hm3
      · exact absurd hm3 (by decide)
      · exact h7 hm3.symm
    · have hm2 := mem_ite_seg hm
      simp only [List.mem_singleton] at hm2
      exact absurd hm2 (by decide)
    · have hm2 := mem_ite_seg hm
      simp only [List.mem_singleton] at hm2
      exact absurd hm2 (by decide)
    · have hm2 := mem_ite_seg hm
      simp only [List.mem_cons, List.not_mem_nil, or_false] at hm2
      rcases hm2 with hm3 | hm3
      · split at hm3 <;> exact absurd hm3 (by decide)
      · exact h8 hm3.symm
    · have hm2 := mem_ite_seg hm
      simp only [List.mem_cons, List.not_mem_nil, or_false] at hm2
      rcases hm2 with hm3 | hm3
      · split at hm3 <;> exact absurd hm3 (by decide)
      · exact h9 hm3.symm
    · have hm2 := mem_ite_seg hm
      simp only [List.mem_singleton] at hm2
      exact absurd hm2 (by decide)
    · have hm2 := mem_ite_seg hm
      simp only [List.mem_cons, List.not_mem_nil, or_false] at hm2
      rcases hm2 with hm3 | hm3
      · exact absurd hm3 (by decide)
      · exact h10 hm3.symm
    · have hm2 := mem_ite_seg hm
      simp only [List.mem_singleton] at hm2
      exact absurd hm2 (by decide)
    · have hm2 := mem_ite_seg hm
      simp only [List.mem_singleton] at hm2
      exact absurd hm2 (by decide)
    · exact hextra hm

theorem verbose_spelled_lib_witness :
    argVector { emptyInputs with verbose := "true" } "/p" ⟨1, 1, 400, []⟩ =
      Except.ok (baseArgs { emptyInputs with verbose := "true" } "/p" ⟨1, 1, 400, []⟩ ++ []) ∧
    "--lib" ∈ baseArgs { emptyInputs with verbose := "true" } "/p" ⟨1, 1, 400, []⟩ ++ [] ∧
    "--verbose" ∉ baseArgs { emptyInputs with verbose := "true" } "/p" ⟨1, 1, 400, []⟩ ++ [] :=
  verbose_spelled_lib { emptyInputs with verbose := "true" } "/p" ⟨1, 1, 400, []⟩ []
    (by decide) (by decide) (by decide) (by decide) (by decide) (by decide) (by decide)
    (by decide) (by decide) (by decide) (by decide) (by decide) (by decide)
